import Mathlib

/-!
Verification of the fb-multi-streamer core: a shallow embedding of the
stream orchestrator (`electron/streaming/orchestrator.ts`) and the ffmpeg
command builder (`electron/streaming/ffmpeg.ts`), with theorems checking
the natural-language specification against the code.

Conventions used throughout:
* JavaScript numbers are modelled as `ℚ` (all numeric code under scrutiny
  is exact decimal arithmetic, `Math.round`, `Math.max`, `Math.min`).
  `Math.round` agrees with Mathlib `round` on `ℚ` (both are `⌊x + 1/2⌋`).
* The JS "or default" idiom `x || d` on numbers (which treats `0` and
  `undefined` as falsy) is `jsOr`; on strings (treating `""` and
  `undefined`/`null` as falsy) it is `jsOrS`.
* The at-rest credential vault is opaque per the spec; it is modelled by
  an injective `encryptTok`/`decryptTok` pair on strings.
* Number-to-string serialization (`ratStr`) stands in for the JS
  template-literal rendering of numbers; the claims checked here depend
  only on the numeric values embedded in the emitted strings and on the
  surrounding literal grammar, never on the decimal rendering itself.
-/

namespace FbStream

/-- JS `x || d` for numbers: `0` and a missing value fall back to `d`. -/
def jsOr (x : Option ℚ) (d : ℚ) : ℚ :=
  match x with
  | some v => if v = 0 then d else v
  | none => d

/-- JS `x || d` for strings: `""` and a missing value fall back to `d`. -/
def jsOrS (x : Option String) (d : String) : String :=
  match x with
  | some s => if s = "" then d else s
  | none => d

/-- One decimal digit character. -/
def digCh : Nat → Char
  | 0 => '0' | 1 => '1' | 2 => '2' | 3 => '3' | 4 => '4'
  | 5 => '5' | 6 => '6' | 7 => '7' | 8 => '8' | _ => '9'

/-- Fuel-indexed decimal digit list of a natural number (most significant first). -/
def natDigsAux : Nat → Nat → List Char
  | 0, _ => []
  | fuel + 1, n => if n < 10 then [digCh n] else natDigsAux fuel (n / 10) ++ [digCh (n % 10)]

/-- Decimal rendering of a natural number. -/
def natStr (n : Nat) : String := ⟨natDigsAux (n + 1) n⟩

/-- Decimal rendering of an integer. -/
def intStr (i : Int) : String :=
  if i < 0 then "-" ++ natStr (-i).toNat else natStr i.toNat

/-- Decimal rendering of a rational, standing in for JS number printing. -/
def ratStr (q : ℚ) : String :=
  if q.den = 1 then intStr q.num else intStr q.num ++ "/" ++ natStr q.den

/-- Boolean test: is the first list a prefix of the second. -/
def chPre : List Char → List Char → Bool
  | [], _ => true
  | _ :: _, [] => false
  | a :: as, b :: bs => a = b && chPre as bs

/-- Boolean test: does the first list occur contiguously inside the second. -/
def chSub (needle : List Char) : List Char → Bool
  | [] => chPre needle []
  | b :: bs => chPre needle (b :: bs) || chSub needle bs

/-- Boolean substring test on strings (JS `String.prototype.includes`). -/
def strContains (hay needle : String) : Bool :=
  chSub needle.data hay.data

theorem chPre_self_append (n b : List Char) : chPre n (n ++ b) = true := by
  induction n with
  | nil => rfl
  | cons a as ih => simp [chPre, ih]

theorem chSub_of_pre {n l : List Char} (h : chPre n l = true) :
    chSub n l = true := by
  cases l with
  | nil => simpa [chSub] using h
  | cons b bs => simp [chSub, h]

theorem chSub_of_middle (n a b : List Char) : chSub n (a ++ (n ++ b)) = true := by
  induction a with
  | nil => exact chSub_of_pre (chPre_self_append n b)
  | cons x xs ih => simp [chSub, ih]

/-- Substring occurrence in a concatenation built around the needle itself. -/
theorem strContains_middle (a n b : String) :
    strContains (a ++ n ++ b) n = true := by
  show chSub n.data ((a ++ n ++ b).data) = true
  have h : (a ++ n ++ b).data = a.data ++ (n.data ++ b.data) := by
    simp
  rw [h]
  exact chSub_of_middle n.data a.data b.data

theorem chPre_mem {n h : List Char} (hp : chPre n h = true) :
    ∀ c ∈ n, c ∈ h := by
  induction n generalizing h with
  | nil => intro c hc; cases hc
  | cons a as ih =>
    cases h with
    | nil => cases hp
    | cons b bs =>
      simp only [chPre, Bool.and_eq_true, decide_eq_true_eq] at hp
      intro c hc
      rcases List.mem_cons.mp hc with rfl | hc
      · exact hp.1 ▸ List.mem_cons_self _ _
      · exact List.mem_cons_of_mem _ (ih hp.2 c hc)

theorem chSub_mem {n h : List Char} (hs : chSub n h = true) :
    ∀ c ∈ n, c ∈ h := by
  induction h with
  | nil => exact chPre_mem hs
  | cons b bs ih =>
    simp only [chSub, Bool.or_eq_true] at hs
    rcases hs with hp | hs
    · exact chPre_mem hp
    · intro c hc; exact List.mem_cons_of_mem _ (ih hs c hc)

/-- A string missing some character of the needle cannot contain the needle. -/
theorem strContains_eq_false {hay needle : String} {c : Char}
    (hc : c ∈ needle.data) (hh : c ∉ hay.data) :
    strContains hay needle = false := by
  cases h : strContains hay needle with
  | false => rfl
  | true => exact absurd (chSub_mem h c hc) hh

theorem digCh_ne_y (d : Nat) : digCh d ≠ 'y' := by
  unfold digCh
  split <;> decide

theorem natDigsAux_ne_y (f n : Nat) : ∀ c ∈ natDigsAux f n, c ≠ 'y' := by
  induction f generalizing n with
  | zero => intro c hc; cases hc
  | succ f ih =>
    intro c hc
    simp only [natDigsAux] at hc
    split at hc
    · rcases List.mem_singleton.mp hc with rfl
      exact digCh_ne_y n
    · rcases List.mem_append.mp hc with hmem | hmem
      · exact ih _ c hmem
      · rcases List.mem_singleton.mp hmem with rfl
        exact digCh_ne_y _

theorem natStr_ne_y (n : Nat) : ∀ c ∈ (natStr n).data, c ≠ 'y' :=
  natDigsAux_ne_y (n + 1) n

theorem intStr_ne_y (i : Int) : ∀ c ∈ (intStr i).data, c ≠ 'y' := by
  intro c hc
  unfold intStr at hc
  split at hc
  · have h : ("-" ++ natStr (-i).toNat).data = '-' :: (natStr (-i).toNat).data := by
      simp
    rw [h] at hc
    rcases List.mem_cons.mp hc with rfl | hmem
    · decide
    · exact natStr_ne_y _ c hmem
  · exact natStr_ne_y _ c hc

theorem ratStr_ne_y (q : ℚ) : ∀ c ∈ (ratStr q).data, c ≠ 'y' := by
  intro c hc
  unfold ratStr at hc
  split at hc
  · exact intStr_ne_y q.num c hc
  · have h : (intStr q.num ++ "/" ++ natStr q.den).data
        = (intStr q.num).data ++ '/' :: (natStr q.den).data := by
      simp
    rw [h] at hc
    rcases List.mem_append.mp hc with hmem | hmem
    · exact intStr_ne_y q.num c hmem
    · rcases List.mem_cons.mp hmem with rfl | hmem
      · decide
      · exact natStr_ne_y q.den c hmem

/-!
Orchestrator data model (`electron/streaming/orchestrator.ts`).
`StreamJob` mirrors the `stream_queue` columns the orchestrator reads;
`SessionRow` mirrors the `stream_sessions` columns it reads and writes.
Loop modes are the integers stored in the database: 0 = Off, 1 = LoopAll,
2 = LoopOne.
-/

/-- The `stream_queue` columns used by the orchestrator. -/
structure StreamJob where
  id : String
  page_id : String
  video_id : String
  playlist : Option (List String)
  title_template : Option String
  description_template : Option String
  recovery_attempts : Option Nat
  loop : Nat
  status : String
  priority : Int
  created_at : Nat
  scheduled_time : Option Nat
deriving Repr, DecidableEq

/-- The `stream_sessions` columns used by the orchestrator. -/
structure SessionRow where
  id : String
  job_id : String
  live_video_id : String
  stream_url : String
  status : String
  error_log : Option String
  started_at : Nat
  current_video_index : Nat
  comment_posted : Bool
deriving Repr, DecidableEq

/-- The orchestrator constant `MAX_RECOVERY_ATTEMPTS`. -/
def MAX_RECOVERY_ATTEMPTS : Nat := 3

/-- The orchestrator constant `MAX_API_FAILURES`. -/
def MAX_API_FAILURES : Nat := 5

/-- JS template rendering of the nullable numeric exit code. -/
def codeRepr : Option Int → String
  | some c => intStr c
  | none => "null"

/-- The database effects of one run of the `close` handler: which index (if
any) the job is restarted at, the updates written to `stream_queue` and to
`stream_sessions` (`none` = the column/row is not touched), the job's
`recovery_attempts` value afterwards, and the session `error_log` written. -/
structure CloseEffect where
  restartIndex : Option Nat
  queueStatus : Option String
  sessionStatus : Option String
  attempts : Nat
  errorLog : Option String
deriving Repr, DecidableEq

/-- The single-item arm of the success branch of the `close` handler
(`currentJob.loop >= 1` restarts at index 0, otherwise both rows become
`stopped`). -/
def closeSingle (loop attempts : Nat) : CloseEffect :=
  if 1 ≤ loop then ⟨some 0, none, none, attempts, none⟩
  else ⟨none, some "stopped", some "stopped", attempts, none⟩

/-- The `close` handler attached in `startStream` (orchestrator.ts lines
329–383): `status`, `loop`, `playlist` and `attempts` are the values re-read
from `stream_queue`, `videoIndex` is the index the exited process was started
with, and `code` is the process exit code (`none` models a `null` code from a
signal-terminated process, which JS compares unequal to `0`). -/
def onClose (status : String) (loop : Nat) (playlist : Option (List String))
    (attempts : Nat) (videoIndex : Nat) (code : Option Int) : CloseEffect :=
  if status = "stopping" then
    ⟨none, some "stopped", some "stopped", attempts, none⟩
  else if code = some 0 then
    match playlist with
    | some pl =>
      if 1 < pl.length then
        if loop = 2 then ⟨some videoIndex, none, none, attempts, none⟩
        else if videoIndex + 1 < pl.length then
          ⟨some (videoIndex + 1), none, none, attempts, none⟩
        else if loop = 1 then ⟨some 0, none, none, attempts, none⟩
        else ⟨none, some "stopped", some "stopped", attempts, none⟩
      else closeSingle loop attempts
    | none => closeSingle loop attempts
  else
    ⟨none,
      some (if MAX_RECOVERY_ATTEMPTS ≤ attempts + 1 then "failed" else "failed_recovery"),
      some "failed", attempts + 1,
      some ("Process exited with code " ++ codeRepr code)⟩

/-- The admission filter of `processQueue` (orchestrator.ts lines 216–223):
status in `{queued, failed_recovery}`, schedule due, and
`COALESCE(recovery_attempts, 0) < MAX_RECOVERY_ATTEMPTS`. -/
def admissible (now : Nat) (j : StreamJob) : Bool :=
  (j.status = "queued" || j.status = "failed_recovery")
  && (match j.scheduled_time with
      | none => true
      | some t => decide (t ≤ now))
  && decide (j.recovery_attempts.getD 0 < MAX_RECOVERY_ATTEMPTS)

/-- The `ORDER BY priority DESC, created_at ASC` comparison of `processQueue`. -/
def queueOrder (a b : StreamJob) : Bool :=
  if a.priority = b.priority then a.created_at ≤ b.created_at else b.priority < a.priority

/-- Insertion into a list ordered by `le`. -/
def insertOrd {α : Type} (le : α → α → Bool) (x : α) : List α → List α
  | [] => [x]
  | y :: ys => if le x y then x :: y :: ys else y :: insertOrd le x ys

/-- Insertion sort by `le` (models the SQL `ORDER BY`). -/
def sortOrd {α : Type} (le : α → α → Bool) : List α → List α
  | [] => []
  | x :: xs => insertOrd le x (sortOrd le xs)

/-- The job-selection query of `processQueue`: filter admissible rows, order
them, take at most `slots` (`LIMIT ?`). -/
def selectJobs (jobs : List StreamJob) (now : Nat) (slots : Nat) : List StreamJob :=
  (sortOrd queueOrder (jobs.filter (admissible now))).take slots

theorem mem_insertOrd {α : Type} (le : α → α → Bool) (x a : α) (l : List α)
    (h : a ∈ insertOrd le x l) : a = x ∨ a ∈ l := by
  induction l with
  | nil => simpa [insertOrd] using h
  | cons y ys ih =>
    simp only [insertOrd] at h
    split at h
    · simpa using h
    · rcases List.mem_cons.mp h with rfl | h
      · simp
      · rcases ih h with rfl | h
        · simp
        · simp [h]

theorem mem_sortOrd {α : Type} (le : α → α → Bool) (a : α) (l : List α)
    (h : a ∈ sortOrd le l) : a ∈ l := by
  induction l with
  | nil => simp [sortOrd] at h
  | cons x xs ih =>
    simp only [sortOrd] at h
    rcases mem_insertOrd le x a _ h with rfl | h
    · simp
    · simp [ih h]

/-- Claim C1: for a process exiting with code 0 while the job is not in
status `stopping`, the `close` handler restarts at exactly the index of the
spec's decision table. With a multi-item playlist: LoopOne (loop = 2)
restarts at the same index; otherwise index+1 when index+1 < length;
otherwise LoopAll (loop = 1) wraps to index 0; otherwise job and session
become `stopped`. With a single item (length ≤ 1 or no playlist): LoopAll
or LoopOne restarts at index 0, and loop Off (loop = 0) makes job and
session `stopped`. -/
theorem c1_close_success_decision_table
    (status : String) (loop : Nat) (pl : List String) (attempts videoIndex : Nat)
    (hs : status ≠ "stopping") :
    (1 < pl.length → loop = 2 →
      onClose status loop (some pl) attempts videoIndex (some 0)
        = ⟨some videoIndex, none, none, attempts, none⟩)
    ∧ (1 < pl.length → loop ≠ 2 → videoIndex + 1 < pl.length →
      onClose status loop (some pl) attempts videoIndex (some 0)
        = ⟨some (videoIndex + 1), none, none, attempts, none⟩)
    ∧ (1 < pl.length → loop = 1 → ¬ videoIndex + 1 < pl.length →
      onClose status loop (some pl) attempts videoIndex (some 0)
        = ⟨some 0, none, none, attempts, none⟩)
    ∧ (1 < pl.length → loop = 0 → ¬ videoIndex + 1 < pl.length →
      onClose status loop (some pl) attempts videoIndex (some 0)
        = ⟨none, some "stopped", some "stopped", attempts, none⟩)
    ∧ (¬ 1 < pl.length → (loop = 1 ∨ loop = 2) →
      onClose status loop (some pl) attempts videoIndex (some 0)
        = ⟨some 0, none, none, attempts, none⟩)
    ∧ ((loop = 1 ∨ loop = 2) →
      onClose status loop none attempts videoIndex (some 0)
        = ⟨some 0, none, none, attempts, none⟩)
    ∧ (¬ 1 < pl.length → loop = 0 →
      onClose status loop (some pl) attempts videoIndex (some 0)
        = ⟨none, some "stopped", some "stopped", attempts, none⟩)
    ∧ (loop = 0 →
      onClose status loop none attempts videoIndex (some 0)
        = ⟨none, some "stopped", some "stopped", attempts, none⟩) := by
  refine ⟨?_, ?_, ?_, ?_, ?_, ?_, ?_, ?_⟩
  · intro hlen hl; subst hl; simp [onClose, hs, hlen]
  · intro hlen hl hidx; simp [onClose, hs, hlen, hl, hidx]
  · intro hlen hl hidx; subst hl; simp [onClose, hs, hlen, hidx]
  · intro hlen hl hidx; subst hl; simp [onClose, hs, hlen, hidx]
  · intro hlen hl
    rcases hl with rfl | rfl <;> simp [onClose, hs, hlen, closeSingle]
  · intro hl
    rcases hl with rfl | rfl <;> simp [onClose, hs, closeSingle]
  · intro hlen hl; subst hl; simp [onClose, hs, hlen, closeSingle]
  · intro hl; subst hl; simp [onClose, hs, closeSingle]

/-- Witness for C1: a 3-item playlist with LoopAll, index 2, success exit,
wraps to index 0. -/
theorem c1_close_success_decision_table_witness :
    onClose "live" 1 (some ["a", "b", "c"]) 0 2 (some 0)
      = ⟨some 0, none, none, 0, none⟩ :=
  (c1_close_success_decision_table "live" 1 ["a", "b", "c"] 0 2
    (by decide)).2.2.1 (by decide) rfl (by decide)

/-- Counterexample for C2: a non-zero process exit (code 1) while the job is
in status `stopping` does not increment `recovery_attempts` (it stays 1) and
does not produce `failed`/`failed_recovery` — the `stopping` branch takes
precedence, so `recovery_attempts` is not incremented on every non-zero
exit as the claim states. -/
theorem c2_stopping_exit_no_increment :
    onClose "stopping" 0 none 1 0 (some 1)
      = ⟨none, some "stopped", some "stopped", 1, none⟩ := by
  decide

/-- Claim C2 (amended): on every non-zero or abnormal exit handled while the
job is not in status `stopping`, `recovery_attempts` is incremented by one,
the job becomes `failed` exactly when the incremented counter reaches
`MAX_RECOVERY_ATTEMPTS` (3) and `failed_recovery` otherwise, and the session
is marked `failed`; the handler never decrements the counter; and the
admission query never selects a job whose `recovery_attempts` is at or
above the maximum. -/
theorem c2_recovery_attempts_amended
    (status : String) (loop : Nat) (pl : Option (List String))
    (attempts videoIndex : Nat) (code : Option Int)
    (jobs : List StreamJob) (now slots : Nat) (j : StreamJob) :
    ((status ≠ "stopping") → code ≠ some 0 →
      (onClose status loop pl attempts videoIndex code).attempts = attempts + 1
      ∧ (onClose status loop pl attempts videoIndex code).queueStatus
          = some (if MAX_RECOVERY_ATTEMPTS ≤ attempts + 1 then "failed" else "failed_recovery")
      ∧ ((onClose status loop pl attempts videoIndex code).queueStatus = some "failed"
          ↔ MAX_RECOVERY_ATTEMPTS ≤ attempts + 1)
      ∧ (onClose status loop pl attempts videoIndex code).sessionStatus = some "failed")
    ∧ attempts ≤ (onClose status loop pl attempts videoIndex code).attempts
    ∧ (j ∈ selectJobs jobs now slots → j.recovery_attempts.getD 0 < MAX_RECOVERY_ATTEMPTS) := by
  refine ⟨?_, ?_, ?_⟩
  · intro hs hc
    refine ⟨by simp [onClose, hs, hc], by simp [onClose, hs, hc], ?_, by simp [onClose, hs, hc]⟩
    by_cases h3 : MAX_RECOVERY_ATTEMPTS ≤ attempts + 1
    · simp [onClose, hs, hc, h3]
    · simp [onClose, hs, hc, h3]
  · unfold onClose closeSingle
    repeat' split
    all_goals simp
  · intro hj
    have h1 : j ∈ sortOrd queueOrder (jobs.filter (admissible now)) :=
      List.mem_of_mem_take hj
    have h2 : j ∈ jobs.filter (admissible now) := mem_sortOrd _ _ _ h1
    have h3 : admissible now j = true := (List.mem_filter.mp h2).2
    simp only [admissible, Bool.and_eq_true, decide_eq_true_eq] at h3
    exact h3.2

/-- Witness for C2 (amended): a second non-zero exit on a job with one prior
attempt yields `failed_recovery` with `recovery_attempts` 2, and a concrete
admissible job selected by the queue has fewer than 3 attempts. -/
theorem c2_recovery_attempts_amended_witness :
    (onClose "live" 0 none 1 0 (some 1)).attempts = 2
    ∧ (⟨"j1", "p", "v", none, none, none, some 1, 0, "queued", 0, 0, none⟩ : StreamJob).recovery_attempts.getD 0
        < MAX_RECOVERY_ATTEMPTS := by
  constructor
  · exact ((c2_recovery_attempts_amended "live" 0 none 1 0 (some 1) [] 0 0
      ⟨"j1", "p", "v", none, none, none, some 1, 0, "queued", 0, 0, none⟩).1
      (by decide) (by decide)).1
  · exact (c2_recovery_attempts_amended "live" 0 none 1 0 (some 1)
      [⟨"j1", "p", "v", none, none, none, some 1, 0, "queued", 0, 0, none⟩] 0 1
      ⟨"j1", "p", "v", none, none, none, some 1, 0, "queued", 0, 0, none⟩).2.2
      (by decide)

/-!
Viewer/health polling loop (`pollViewerStats`, orchestrator.ts lines 26–124).
For each live session the combined liveness+viewer query either succeeds
(`true`) — resetting `api_fail_count` to 0 — or fails (`false`) —
incrementing it; when the incremented counter reaches `MAX_API_FAILURES`
(5) the breaker trips: the job is marked `circuit_breaker` and its process
stopped (so the session is no longer polled).
-/

/-- One poll of a live session: given the stored `api_fail_count` and the
query outcome, the new counter and whether the circuit breaker trips. -/
def pollStep (c : Nat) (ok : Bool) : Nat × Bool :=
  if ok then (0, false) else (c + 1, decide (MAX_API_FAILURES ≤ c + 1))

/-- A run of poll outcomes for one session, stopping when the breaker trips
(the tripped job's process is stopped, so no further polls happen). Returns
the final counter and whether the breaker tripped during the run. -/
def pollRun : Nat → List Bool → Nat × Bool
  | c, [] => (c, false)
  | c, o :: rest =>
    let s := pollStep c o
    if s.2 then (s.1, true) else pollRun s.1 rest

/-- Does the trace start with `k` consecutive failures. -/
def leadFalse : Nat → List Bool → Bool
  | 0, _ => true
  | _ + 1, [] => false
  | k + 1, o :: rest => !o && leadFalse k rest

/-- Does the trace contain 5 consecutive failures anywhere. -/
def hasFiveRun : List Bool → Bool
  | [] => false
  | o :: rest => leadFalse 5 (o :: rest) || hasFiveRun rest

theorem leadFalse_mono {k m : Nat} {l : List Bool} (hkm : k ≤ m)
    (h : leadFalse m l = true) : leadFalse k l = true := by
  induction l generalizing k m with
  | nil =>
    cases k with
    | zero => rfl
    | succ k => cases m with
      | zero => omega
      | succ m => exact absurd h (by simp [leadFalse])
  | cons o rest ih =>
    cases k with
    | zero => rfl
    | succ k =>
      cases m with
      | zero => omega
      | succ m =>
        simp only [leadFalse, Bool.and_eq_true] at h ⊢
        exact ⟨h.1, ih (by omega) h.2⟩

theorem leadFalse_five_or_hasFiveRun (l : List Bool) :
    (leadFalse 5 l || hasFiveRun l) = hasFiveRun l := by
  cases l with
  | nil => rfl
  | cons o rest =>
    show (leadFalse 5 (o :: rest) || hasFiveRun (o :: rest)) = _
    rw [hasFiveRun]
    rw [← Bool.or_assoc, Bool.or_self]

theorem pollRun_trips (c : Nat) (tr : List Bool) (hc : c < MAX_API_FAILURES) :
    (pollRun c tr).2 = (leadFalse (MAX_API_FAILURES - c) tr || hasFiveRun tr) := by
  induction tr generalizing c with
  | nil =>
    have h5 : MAX_API_FAILURES - c ≠ 0 := by unfold MAX_API_FAILURES at *; omega
    cases h : MAX_API_FAILURES - c with
    | zero => exact absurd h h5
    | succ k => simp [pollRun, h, leadFalse, hasFiveRun]
  | cons o rest ih =>
    cases o with
    | true =>
      have h1 : pollRun c (true :: rest) = pollRun 0 rest := by
        simp [pollRun, pollStep]
      rw [h1, ih 0 (by unfold MAX_API_FAILURES; omega)]
      have h2 : MAX_API_FAILURES - 0 = 5 := rfl
      rw [h2]
      have h3 : leadFalse (MAX_API_FAILURES - c) (true :: rest) = false := by
        have h4 : MAX_API_FAILURES - c ≠ 0 := by unfold MAX_API_FAILURES at *; omega
        cases h : MAX_API_FAILURES - c with
        | zero => exact absurd h h4
        | succ k => simp [leadFalse]
      rw [h3, Bool.false_or, hasFiveRun, leadFalse_five_or_hasFiveRun]
      simp [leadFalse]
    | false =>
      by_cases htrip : MAX_API_FAILURES ≤ c + 1
      · have h1 : (pollRun c (false :: rest)).2 = true := by
          simp [pollRun, pollStep, htrip]
        have hc1 : c = 4 := by unfold MAX_API_FAILURES at *; omega
        subst hc1
        have h2 : leadFalse (MAX_API_FAILURES - 4) (false :: rest) = true := by
          show leadFalse 1 (false :: rest) = true
          simp [leadFalse]
        rw [h1, h2, Bool.true_or]
      · have h1 : pollRun c (false :: rest) = pollRun (c + 1) rest := by
          simp [pollRun, pollStep, htrip]
        rw [h1, ih (c + 1) (by omega)]
        have h2 : MAX_API_FAILURES - c = (MAX_API_FAILURES - (c + 1)) + 1 := by
          unfold MAX_API_FAILURES at *; omega
        have h3 : leadFalse (MAX_API_FAILURES - c) (false :: rest)
            = leadFalse (MAX_API_FAILURES - (c + 1)) rest := by
          rw [h2]; simp [leadFalse]
        have h4 : hasFiveRun (false :: rest)
            = (leadFalse 4 rest || hasFiveRun rest) := by
          rw [hasFiveRun]
          show (leadFalse 5 (false :: rest) || _) = _
          simp [leadFalse]
        rw [h3, h4]
        cases h5 : leadFalse 4 rest with
        | false => simp
        | true =>
          have h6 : leadFalse (MAX_API_FAILURES - (c + 1)) rest = true :=
            leadFalse_mono (by unfold MAX_API_FAILURES at *; omega) h5
          simp [h6]

/-- Claim C4: a successful status query resets the session's
`api_fail_count` to 0 and a failed query increments it; the breaker trips
exactly when the incremented counter reaches `MAX_API_FAILURES` (5); over
any run starting from a fresh counter the breaker trips exactly when the
outcome trace contains 5 consecutive failures; and concretely 4 failures,
1 success, then 4 failures never trips (final counter 4). -/
theorem c4_circuit_breaker_exactly_at_five (c : Nat) (tr : List Bool) :
    pollStep c true = (0, false)
    ∧ pollStep c false = (c + 1, decide (MAX_API_FAILURES ≤ c + 1))
    ∧ ((pollStep c false).2 = true ↔ MAX_API_FAILURES ≤ c + 1)
    ∧ (pollRun 0 tr).2 = hasFiveRun tr
    ∧ pollRun 0 [false, false, false, false, true, false, false, false, false]
        = (4, false) := by
  refine ⟨rfl, rfl, by simp [pollStep], ?_, by decide⟩
  rw [pollRun_trips 0 tr (by unfold MAX_API_FAILURES; omega)]
  exact leadFalse_five_or_hasFiveRun tr

/-!
Token recovery (`withTokenRecovery`, orchestrator.ts lines 131–207).
The credential vault is opaque (spec §2 "Credential Vault"); it is modelled
by the injective `encryptTok`/`decryptTok` pair. The wrapped remote action
is a function of the attempt number (0 = first try, 1 = the single retry)
and the token it is given; `sync` models `fb.syncPageTokens`.
-/

/-- An encrypted credential triple as stored in the `pages` table. -/
structure EncTok where
  ciphertext : String
  nonce : String
  authTag : String
deriving Repr, DecidableEq

/-- Model of the opaque vault `cryptoService.encrypt`. -/
def encryptTok (t : String) : EncTok :=
  ⟨"enc:" ++ t, "nonce:" ++ t, "tag:" ++ t⟩

/-- Model of the opaque vault `cryptoService.decrypt` (left inverse of
`encryptTok`). -/
def decryptTok (e : EncTok) : String := e.ciphertext.drop 4

/-- A row of the `pages` table: destination id and encrypted credential. -/
structure PageRow where
  id : String
  tok : EncTok
deriving Repr, DecidableEq

/-- One destination in the batch returned by the account-level refresh. -/
structure FreshPage where
  id : String
  access_token : String
deriving Repr, DecidableEq

/-- The expired/invalid-credential error-text test of `withTokenRecovery`. -/
def isExpiredMsg (msg : String) : Bool :=
  strContains msg "Session has expired"
  || strContains msg "Error validating access token"

/-- Environment of one `withTokenRecovery` call: the `pages` table, the
account-level credentials from settings (`none` models a missing
`app_id`/`app_secret`/`user_token_encrypted` row), the batch refresh call,
and the wrapped action indexed by attempt number. -/
structure RecoveryEnv (T : Type) where
  pages : List PageRow
  userCreds : Option String
  sync : String → Except String (List FreshPage)
  action : Nat → String → Except String T

/-- Result of one `withTokenRecovery` call: the returned or thrown value,
the `pages` table afterwards, and how many times the action was invoked. -/
structure RecoveryOut (T : Type) where
  result : Except String T
  pages : List PageRow
  calls : Nat

/-- The `UPDATE pages SET ... WHERE id = ?` loop over the refreshed batch:
each batch entry re-encrypts the matching stored row (rows absent from the
table are untouched, `UPDATE` inserts nothing). -/
def updatePages (pages : List PageRow) (fresh : List FreshPage) : List PageRow :=
  fresh.foldl
    (fun acc p => acc.map
      (fun pg => if pg.id == p.id then ⟨pg.id, encryptTok p.access_token⟩ else pg))
    pages

/-- The `newToken` accumulation loop: the last batch entry matching the
requested destination wins; `""` means the destination is absent. -/
def lookupFresh (fresh : List FreshPage) (pageId : String) : String :=
  fresh.foldl (fun acc p => if p.id == pageId then p.access_token else acc) ""

/-- Shallow embedding of `withTokenRecovery` (orchestrator.ts 131–207). -/
def withTokenRecovery {T : Type} (env : RecoveryEnv T) (pageId : String) :
    RecoveryOut T :=
  match env.pages.find? (fun p => p.id == pageId) with
  | none => ⟨.error ("Page " ++ pageId ++ " not found in database"), env.pages, 0⟩
  | some page =>
    match env.action 0 (decryptTok page.tok) with
    | .ok v => ⟨.ok v, env.pages, 1⟩
    | .error e =>
      if isExpiredMsg e then
        match env.userCreds with
        | none => ⟨.error e, env.pages, 1⟩
        | some userToken =>
          match env.sync userToken with
          | .error _ => ⟨.error e, env.pages, 1⟩
          | .ok fresh =>
            let pages2 := updatePages env.pages fresh
            let newToken := lookupFresh fresh pageId
            if newToken = "" then ⟨.error e, pages2, 1⟩
            else
              match env.action 1 newToken with
              | .ok v => ⟨.ok v, pages2, 2⟩
              | .error _ => ⟨.error e, pages2, 2⟩
      else ⟨.error e, env.pages, 1⟩

theorem updOne_id (p : FreshPage) (pg : PageRow) :
    (if pg.id == p.id then (⟨pg.id, encryptTok p.access_token⟩ : PageRow) else pg).id
      = pg.id := by
  split <;> rfl

theorem find?_map_updOne (x : String) (q : FreshPage) (l : List PageRow) :
    (l.map (fun pg => if pg.id == q.id then ⟨pg.id, encryptTok q.access_token⟩ else pg)).find?
        (fun pg => pg.id == x)
      = (l.find? (fun pg => pg.id == x)).map
          (fun pg => if pg.id == q.id then ⟨pg.id, encryptTok q.access_token⟩ else pg) := by
  rw [List.find?_map]
  have hfun : ((fun pg => pg.id == x)
        ∘ (fun pg => if pg.id == q.id then (⟨pg.id, encryptTok q.access_token⟩ : PageRow) else pg))
      = (fun pg : PageRow => pg.id == x) := by
    funext pg
    show ((if pg.id == q.id then (⟨pg.id, encryptTok q.access_token⟩ : PageRow) else pg).id == x)
        = (pg.id == x)
    rw [updOne_id]
  rw [hfun]

theorem updatePages_find_untouched (x : String) (l : List PageRow)
    (fresh : List FreshPage) (hx : ∀ p ∈ fresh, p.id ≠ x) :
    (updatePages l fresh).find? (fun pg => pg.id == x)
      = l.find? (fun pg => pg.id == x) := by
  induction fresh generalizing l with
  | nil => rfl
  | cons q rest ih =>
    show (updatePages (l.map _) rest).find? _ = _
    rw [ih _ (fun p hp => hx p (List.mem_cons_of_mem _ hp))]
    rw [find?_map_updOne]
    cases hfind : l.find? (fun pg => pg.id == x) with
    | none => rfl
    | some r =>
      have hr : r.id = x := by
        have := List.find?_some hfind
        simpa using this
      have hq : ¬ (r.id == q.id) = true := by
        simp only [beq_iff_eq, hr]
        intro hqe
        exact hx q (List.mem_cons_self _ _) hqe.symm
      simp only [Option.map_some']
      rw [if_neg hq]

/-- Every destination in the refresh batch (with batch ids distinct) that
exists as a row of the `pages` table ends up stored with the freshly
re-encrypted credential. -/
theorem updatePages_find_of_nodup (l : List PageRow) (fresh : List FreshPage)
    (hnd : (fresh.map FreshPage.id).Nodup) (p : FreshPage) (hp : p ∈ fresh) :
    (updatePages l fresh).find? (fun pg => pg.id == p.id)
      = (l.find? (fun pg => pg.id == p.id)).map
          (fun pg => ⟨pg.id, encryptTok p.access_token⟩) := by
  induction fresh generalizing l with
  | nil => cases hp
  | cons q rest ih =>
    have hnd' : (rest.map FreshPage.id).Nodup := (List.nodup_cons.mp hnd).2
    have hqrest : q.id ∉ rest.map FreshPage.id := (List.nodup_cons.mp hnd).1
    rcases List.mem_cons.mp hp with rfl | hp
    · show (updatePages (l.map _) rest).find? _ = _
      rw [updatePages_find_untouched _ _ rest
        (fun r hr hre => hqrest (by rw [← hre]; exact List.mem_map_of_mem FreshPage.id hr))]
      rw [find?_map_updOne]
      cases hfind : l.find? (fun pg => pg.id == p.id) with
      | none => rfl
      | some r =>
        have hr : (r.id == p.id) = true := by
          simpa using List.find?_some hfind
        simp only [Option.map_some']
        rw [if_pos hr]
    · show (updatePages (l.map _) rest).find? _ = _
      rw [ih _ hnd' hp]
      rw [find?_map_updOne]
      cases hfind : l.find? (fun pg => pg.id == p.id) with
      | none => rfl
      | some r =>
        have hr : r.id = p.id := by
          simpa using List.find?_some hfind
        have hq : ¬ (r.id == q.id) = true := by
          simp only [beq_iff_eq, hr]
          intro hqe
          exact hqrest (hqe ▸ List.mem_map_of_mem FreshPage.id hp)
        simp only [Option.map_some']
        rw [if_neg hq]

/-- Claim C3: the wrapper retries at most once; a non-credential error is
propagated unchanged; on an expired/invalid-credential first failure it
refreshes, persisting the re-encrypted credential of every destination in
the batch, and retries once with the refreshed credential of the requested
destination; missing account credentials, a failing refresh, a destination
absent from the batch, or a failing retry all propagate the original
error. -/
theorem c3_token_recovery_single_retry {T : Type} (env : RecoveryEnv T)
    (pageId : String) (page : PageRow) (e : String)
    (hfind : env.pages.find? (fun p => p.id == pageId) = some page)
    (hfail : env.action 0 (decryptTok page.tok) = .error e) :
    (withTokenRecovery env pageId).calls ≤ 2
    ∧ (isExpiredMsg e = false →
        withTokenRecovery env pageId = ⟨.error e, env.pages, 1⟩)
    ∧ (isExpiredMsg e = true → env.userCreds = none →
        withTokenRecovery env pageId = ⟨.error e, env.pages, 1⟩)
    ∧ (∀ u se, isExpiredMsg e = true → env.userCreds = some u →
        env.sync u = .error se →
        withTokenRecovery env pageId = ⟨.error e, env.pages, 1⟩)
    ∧ (∀ u fresh, isExpiredMsg e = true → env.userCreds = some u →
        env.sync u = .ok fresh → lookupFresh fresh pageId = "" →
        withTokenRecovery env pageId = ⟨.error e, updatePages env.pages fresh, 1⟩)
    ∧ (∀ u fresh v, isExpiredMsg e = true → env.userCreds = some u →
        env.sync u = .ok fresh → lookupFresh fresh pageId ≠ "" →
        env.action 1 (lookupFresh fresh pageId) = .ok v →
        withTokenRecovery env pageId = ⟨.ok v, updatePages env.pages fresh, 2⟩)
    ∧ (∀ u fresh e2, isExpiredMsg e = true → env.userCreds = some u →
        env.sync u = .ok fresh → lookupFresh fresh pageId ≠ "" →
        env.action 1 (lookupFresh fresh pageId) = .error e2 →
        withTokenRecovery env pageId = ⟨.error e, updatePages env.pages fresh, 2⟩)
    ∧ (∀ fresh p, (fresh.map FreshPage.id).Nodup → p ∈ fresh →
        (updatePages env.pages fresh).find? (fun pg => pg.id == p.id)
          = (env.pages.find? (fun pg => pg.id == p.id)).map
              (fun pg => ⟨pg.id, encryptTok p.access_token⟩)) := by
  refine ⟨?_, ?_, ?_, ?_, ?_, ?_, ?_, ?_⟩
  · simp only [withTokenRecovery, hfind, hfail]
    repeat' split
    all_goals simp
  · intro hexp
    simp [withTokenRecovery, hfind, hfail, hexp]
  · intro hexp hcred
    simp [withTokenRecovery, hfind, hfail, hexp, hcred]
  · intro u se hexp hcred hsync
    simp [withTokenRecovery, hfind, hfail, hexp, hcred, hsync]
  · intro u fresh hexp hcred hsync habsent
    simp [withTokenRecovery, hfind, hfail, hexp, hcred, hsync, habsent]
  · intro u fresh v hexp hcred hsync hpresent hretry
    simp [withTokenRecovery, hfind, hfail, hexp, hcred, hsync, hpresent, hretry]
  · intro u fresh e2 hexp hcred hsync hpresent hretry
    simp [withTokenRecovery, hfind, hfail, hexp, hcred, hsync, hpresent, hretry]
  · intro fresh p hnd hp
    exact updatePages_find_of_nodup env.pages fresh hnd p hp

/-- Concrete environment for the C3 witness: one stored page whose token has
expired, an account-level refresh returning one fresh token, and an action
that fails once with an expired-session message and then succeeds. -/
def c3EnvW : RecoveryEnv Nat :=
  { pages := [⟨"p1", encryptTok "oldtok"⟩]
    userCreds := some "usertok"
    sync := fun _ => .ok [⟨"p1", "newtok"⟩]
    action := fun attempt t =>
      if attempt = 0 then .error "Session has expired"
      else if t = "newtok" then .ok 42 else .error "bad token" }

/-- Witness for C3: the refreshed retry succeeds and the store holds the
re-encrypted fresh credential. -/
theorem c3_token_recovery_single_retry_witness :
    withTokenRecovery c3EnvW "p1"
      = ⟨.ok 42, updatePages c3EnvW.pages [⟨"p1", "newtok"⟩], 2⟩ :=
  (c3_token_recovery_single_retry c3EnvW "p1" ⟨"p1", encryptTok "oldtok"⟩
      "Session has expired" rfl rfl).2.2.2.2.2.1
    "usertok" [⟨"p1", "newtok"⟩] 42 (by decide) rfl rfl (by decide) rfl

/-!
Start sequence (`startStream`, orchestrator.ts lines 231–393): session
reuse-or-create (step 2, lines 254–276) and the catch handler
(lines 387–392).
-/

/-- The filter of the prior-session query: same job, status in
`{live, failed, stopped}`. -/
def reusable (jobId : String) (s : SessionRow) : Bool :=
  s.job_id == jobId
  && (s.status == "live" || s.status == "failed" || s.status == "stopped")

/-- The `ORDER BY started_at DESC LIMIT 1` query over reusable sessions. -/
def latestReusable (sessions : List SessionRow) (jobId : String) : Option SessionRow :=
  match sessions.filter (reusable jobId) with
  | [] => none
  | s :: rest =>
    some (rest.foldl (fun b t => if b.started_at < t.started_at then t else b) s)

/-- Outcome of step 2 of the start sequence: reuse the stored broadcast or
create a fresh one with the given title and description. -/
inductive LiveResolution
  | reuse (liveVideoId streamUrl : String)
  | createNew (title description : String)
deriving Repr, DecidableEq

/-- Shallow embedding of the reuse-or-create decision (orchestrator.ts
254–276), including the JS `||` fallbacks for the title and description
templates. -/
def resolveLiveVideo (sessions : List SessionRow) (job : StreamJob)
    (videoIndex : Nat) (videoFilename : String) : LiveResolution :=
  match latestReusable sessions job.id with
  | some s =>
    if 0 < videoIndex ∨ 0 < job.recovery_attempts.getD 0 then
      .reuse s.live_video_id s.stream_url
    else
      .createNew (jsOrS job.title_template ("Live: " ++ videoFilename))
        (jsOrS job.description_template "Bulk Streamer Live")
  | none =>
    .createNew (jsOrS job.title_template ("Live: " ++ videoFilename))
      (jsOrS job.description_template "Bulk Streamer Live")

/-- Claim C5: the stored broadcast id and ingest URL are reused iff a prior
session with status in `{live, failed, stopped}` exists and (videoIndex > 0
or the job has a prior recovery attempt); in every other case a new remote
broadcast is created from the title/description templates, falling back to
a default title referencing the content filename. -/
theorem c5_session_reuse_iff (sessions : List SessionRow) (job : StreamJob)
    (videoIndex : Nat) (fn : String) :
    (((∃ s ∈ sessions, reusable job.id s = true)
        ∧ (0 < videoIndex ∨ 0 < job.recovery_attempts.getD 0)) →
      ∃ s, latestReusable sessions job.id = some s
        ∧ resolveLiveVideo sessions job videoIndex fn
            = .reuse s.live_video_id s.stream_url)
    ∧ (¬ ((∃ s ∈ sessions, reusable job.id s = true)
        ∧ (0 < videoIndex ∨ 0 < job.recovery_attempts.getD 0)) →
      resolveLiveVideo sessions job videoIndex fn
        = .createNew (jsOrS job.title_template ("Live: " ++ fn))
            (jsOrS job.description_template "Bulk Streamer Live")) := by
  constructor
  · rintro ⟨⟨s0, hs0, hr0⟩, hidx⟩
    have hmem : s0 ∈ sessions.filter (reusable job.id) :=
      List.mem_filter.mpr ⟨hs0, hr0⟩
    cases hf : sessions.filter (reusable job.id) with
    | nil => rw [hf] at hmem; cases hmem
    | cons s rest =>
      refine ⟨rest.foldl (fun b t => if b.started_at < t.started_at then t else b) s, ?_, ?_⟩
      · unfold latestReusable; rw [hf]
      · unfold resolveLiveVideo latestReusable; rw [hf]
        simp [hidx]
  · intro hncond
    cases hm : latestReusable sessions job.id with
    | none => unfold resolveLiveVideo; rw [hm]
    | some s =>
      have hex : ∃ s0 ∈ sessions, reusable job.id s0 = true := by
        cases hf : sessions.filter (reusable job.id) with
        | nil => unfold latestReusable at hm; rw [hf] at hm; cases hm
        | cons s1 r1 =>
          have hmem : s1 ∈ sessions.filter (reusable job.id) := by
            rw [hf]; exact List.mem_cons_self _ _
          exact ⟨s1, (List.mem_filter.mp hmem).1, (List.mem_filter.mp hmem).2⟩
      have hnidx : ¬ (0 < videoIndex ∨ 0 < job.recovery_attempts.getD 0) :=
        fun hidx => hncond ⟨hex, hidx⟩
      unfold resolveLiveVideo; rw [hm]
      simp [hnidx]

/-- Witness for C5: a job with one prior recovery attempt and a prior
`failed` session reuses its stored broadcast id and ingest URL. -/
theorem c5_session_reuse_iff_witness :
    ∃ s, latestReusable [⟨"s1", "j1", "L1", "rtmp://u", "failed", none, 10, 0, false⟩] "j1"
        = some s
      ∧ resolveLiveVideo [⟨"s1", "j1", "L1", "rtmp://u", "failed", none, 10, 0, false⟩]
          ⟨"j1", "p", "v", none, none, none, some 1, 0, "queued", 0, 0, none⟩ 0 "a.mp4"
          = .reuse s.live_video_id s.stream_url :=
  (c5_session_reuse_iff [⟨"s1", "j1", "L1", "rtmp://u", "failed", none, 10, 0, false⟩]
      ⟨"j1", "p", "v", none, none, none, some 1, 0, "queued", 0, 0, none⟩ 0 "a.mp4").1
    ⟨⟨⟨"s1", "j1", "L1", "rtmp://u", "failed", none, 10, 0, false⟩, by decide, by decide⟩,
      Or.inr (by decide)⟩

/-- The remote broadcast object returned by `fb.createLiveVideo`. -/
structure LiveInfo where
  id : String
  video_id : Option String
  stream_url : String
deriving Repr, DecidableEq

/-- The orchestrator state a start attempt touches: the job's
`stream_queue` status, the `stream_sessions` table, and the in-memory
supervision table (`activeStreams` keys). -/
structure OrchState where
  queueStatus : String
  sessions : List SessionRow
  active : List String
deriving Repr, DecidableEq

/-- The environment of one `startStream` run: whether the page row, the
app credentials and the video row exist, and the outcomes of the remote
broadcast creation and of the step-6 session write. -/
structure StartEnv where
  hasPage : Bool
  hasCreds : Bool
  videoFilename : Option String
  createLive : Except String LiveInfo
  sessionWrite : Except String Unit
deriving Repr

/-- `activeStreams.set(job.id, child)`: register the job id. -/
def registerActive (active : List String) (id : String) : List String :=
  if active.contains id then active else active ++ [id]

/-- The row written by the catch handler's
`INSERT OR REPLACE INTO stream_sessions (id, job_id, status, error_log, ...)`
— the replaced row's unspecified columns become NULL/defaults. -/
def failedRow (jobId msg : String) : SessionRow :=
  ⟨jobId, jobId, "", "", "failed", some msg, 0, 0, false⟩

/-- `INSERT OR REPLACE` keyed on `id = job.id`. -/
def upsertFailed (sessions : List SessionRow) (jobId msg : String) : List SessionRow :=
  if sessions.any (fun s => s.id == jobId) then
    sessions.map (fun s => if s.id == jobId then failedRow jobId msg else s)
  else sessions ++ [failedRow jobId msg]

/-- The catch handler of `startStream` (orchestrator.ts 387–392): job to
`failed`, failed session row with the exception message written; nothing
else is touched — in particular `activeStreams` is left as it was. -/
def catchFail (st : OrchState) (jobId msg : String) : OrchState :=
  { st with queueStatus := "failed", sessions := upsertFailed st.sessions jobId msg }

/-- The session row inserted at step 6 for a fresh start (`videoIndex = 0`);
the random UUID is modelled deterministically. -/
def newSessionRow (jobId liveId streamUrl : String) (videoIndex : Nat) : SessionRow :=
  ⟨jobId ++ ":sess", jobId, liveId, streamUrl, "live", none, 0, videoIndex, false⟩

/-- Shallow embedding of `startStream` (orchestrator.ts 231–393) at the
granularity the claims need: mark `starting`; abort on missing
page/video/credentials; resolve or create the broadcast (abort if creation
fails); spawn and register the process; write or update the session row
(abort if the write fails); mark `live`. Aborting means running the catch
handler on the state as it is at the throw point. -/
def startStreamModel (env : StartEnv) (job : StreamJob) (videoIndex : Nat)
    (st0 : OrchState) : OrchState :=
  let st : OrchState := { st0 with queueStatus := "starting" }
  if ¬ (env.hasPage ∧ env.hasCreds ∧ env.videoFilename.isSome) then
    catchFail st job.id "Missing stream components"
  else
    let proceed := fun (liveId streamUrl : String) =>
      let st2 : OrchState := { st with active := registerActive st.active job.id }
      match env.sessionWrite with
      | .error m => catchFail st2 job.id m
      | .ok _ =>
        let st3 : OrchState :=
          if videoIndex = 0 then
            { st2 with sessions :=
                st2.sessions ++ [newSessionRow job.id liveId streamUrl videoIndex] }
          else
            { st2 with sessions :=
                st2.sessions.map (fun s =>
                  if s.job_id == job.id then
                    { s with status := "live", current_video_index := videoIndex }
                  else s) }
        { st3 with queueStatus := "live" }
    match resolveLiveVideo st.sessions job videoIndex (env.videoFilename.getD "") with
    | .reuse l u => proceed l u
    | .createNew _ _ =>
      match env.createLive with
      | .error m => catchFail st job.id m
      | .ok info => proceed info.id info.stream_url

theorem upsertFailed_mem (sessions : List SessionRow) (jobId msg : String) :
    failedRow jobId msg ∈ upsertFailed sessions jobId msg := by
  unfold upsertFailed
  split
  · rename_i hany
    rcases List.any_eq_true.mp hany with ⟨s, hs, hid⟩
    exact List.mem_map.mpr ⟨s, hs, by simp [hid]⟩
  · simp

/-- Counterexample for C8: everything up to the step-6 session write
succeeds, the process is spawned and registered, then the session write
throws — the catch handler marks the job `failed` and writes the error
session row, but the supervision-table entry for the job remains (it is
not removed, contradicting the claim). -/
theorem c8_entry_not_removed_counterexample :
    (startStreamModel
        ⟨true, true, some "a.mp4", .ok ⟨"L1", none, "rtmp://u"⟩, .error "SQLITE_BUSY"⟩
        ⟨"j1", "p", "v", none, none, none, none, 0, "queued", 0, 0, none⟩ 0
        ⟨"queued", [], []⟩).active = ["j1"]
    ∧ (startStreamModel
        ⟨true, true, some "a.mp4", .ok ⟨"L1", none, "rtmp://u"⟩, .error "SQLITE_BUSY"⟩
        ⟨"j1", "p", "v", none, none, none, none, 0, "queued", 0, 0, none⟩ 0
        ⟨"queued", [], []⟩).queueStatus = "failed" := by
  constructor <;> rfl

/-- Claim C8 (amended): every exception during the start sequence's steps
1–6 aborts the job directly to `failed` and writes a session record whose
`error_log` carries the exception message; the in-memory supervision entry
is NOT removed by the catch handler — an exception before registration
leaves the table as it was, an exception after registration leaves the
entry in place (removal happens only in the process exit handler). -/
theorem c8_start_failure_aborts_amended (env : StartEnv) (job : StreamJob)
    (videoIndex : Nat) (st0 : OrchState) :
    ((¬ (env.hasPage ∧ env.hasCreds ∧ env.videoFilename.isSome)) →
      startStreamModel env job videoIndex st0
        = catchFail ⟨"starting", st0.sessions, st0.active⟩ job.id
            "Missing stream components")
    ∧ (∀ t d m, (env.hasPage ∧ env.hasCreds ∧ env.videoFilename.isSome) →
        resolveLiveVideo st0.sessions job videoIndex (env.videoFilename.getD "")
            = .createNew t d →
        env.createLive = .error m →
        startStreamModel env job videoIndex st0
          = catchFail ⟨"starting", st0.sessions, st0.active⟩ job.id m)
    ∧ (∀ l u m, (env.hasPage ∧ env.hasCreds ∧ env.videoFilename.isSome) →
        resolveLiveVideo st0.sessions job videoIndex (env.videoFilename.getD "")
            = .reuse l u →
        env.sessionWrite = .error m →
        startStreamModel env job videoIndex st0
          = catchFail ⟨"starting", st0.sessions, registerActive st0.active job.id⟩
              job.id m)
    ∧ (∀ t d info m, (env.hasPage ∧ env.hasCreds ∧ env.videoFilename.isSome) →
        resolveLiveVideo st0.sessions job videoIndex (env.videoFilename.getD "")
            = .createNew t d →
        env.createLive = .ok info →
        env.sessionWrite = .error m →
        startStreamModel env job videoIndex st0
          = catchFail ⟨"starting", st0.sessions, registerActive st0.active job.id⟩
              job.id m)
    ∧ (∀ (st : OrchState) (jobId msg : String),
        (catchFail st jobId msg).queueStatus = "failed"
        ∧ failedRow jobId msg ∈ (catchFail st jobId msg).sessions
        ∧ (catchFail st jobId msg).active = st.active) := by
  refine ⟨?_, ?_, ?_, ?_, ?_⟩
  · intro h
    simp [startStreamModel, h]
  · intro t d m hc hres hcl
    simp [startStreamModel, hc.1, hc.2.1, hc.2.2, hres, hcl]
  · intro l u m hc hres hsw
    simp [startStreamModel, hc.1, hc.2.1, hc.2.2, hres, hsw]
  · intro t d info m hc hres hcl hsw
    simp [startStreamModel, hc.1, hc.2.1, hc.2.2, hres, hcl, hsw]
  · intro st jobId msg
    exact ⟨rfl, upsertFailed_mem st.sessions jobId msg, rfl⟩

/-- Witness for C8 (amended): a failing step-6 session write aborts to the
catch handler with the supervision entry registered and left in place. -/
theorem c8_start_failure_aborts_amended_witness :
    startStreamModel
        ⟨true, true, some "a.mp4", .ok ⟨"L1", none, "rtmp://u"⟩, .error "SQLITE_BUSY"⟩
        ⟨"j1", "p", "v", none, none, none, none, 0, "queued", 0, 0, none⟩ 0
        ⟨"queued", [], []⟩
      = catchFail ⟨"starting", [], registerActive [] "j1"⟩ "j1" "SQLITE_BUSY" :=
  (c8_start_failure_aborts_amended
      ⟨true, true, some "a.mp4", .ok ⟨"L1", none, "rtmp://u"⟩, .error "SQLITE_BUSY"⟩
      ⟨"j1", "p", "v", none, none, none, none, 0, "queued", 0, 0, none⟩ 0
      ⟨"queued", [], []⟩).2.2.2.1
    "Live: a.mp4" "Bulk Streamer Live" ⟨"L1", none, "rtmp://u"⟩ "SQLITE_BUSY"
    (by decide) (by decide) rfl rfl

/-!
Pipeline compiler (`electron/streaming/ffmpeg.ts`). Profile numbers are ℚ;
`ratStr` stands in for the JS template rendering of numbers. The smart
layout stage (applyProfile step 3, lines 105–211) pushes exactly one filter
entry: either the simple scale+pad, or a split/scale/overlay graph.
-/

/-- `profile.background.type`. -/
inductive BgType
  | black | blur | mirror | image
deriving Repr, DecidableEq

/-- `profile.background`. -/
structure Background where
  type : BgType
  imagePath : Option String
deriving Repr, DecidableEq

/-- `profile.aspectRatio`. -/
inductive AspectRatio
  | r16x9 | r9x16 | r4x5 | r1x1 | custom
deriving Repr, DecidableEq

/-- Target resolution policy (ffmpeg.ts 107–118): a non-Custom named aspect
ratio maps to a fixed canonical resolution (16:9 keeps the 1920×1080
default), otherwise an explicit scale pair is used, otherwise 1920×1080. -/
def targetRes (ar : Option AspectRatio) (scale : Option (ℚ × ℚ)) : ℚ × ℚ :=
  match ar with
  | some a =>
    if a ≠ AspectRatio.custom then
      if a = AspectRatio.r1x1 then (1080, 1080)
      else if a = AspectRatio.r4x5 then (1080, 1350)
      else if a = AspectRatio.r9x16 then (1080, 1920)
      else (1920, 1080)
    else
      match scale with
      | some s => s
      | none => (1920, 1080)
  | none =>
    match scale with
    | some s => s
    | none => (1920, 1080)

/-- The simple scale+pad filter of the non-smart-layout branch (line 128). -/
def simplePad (W H : ℚ) : String :=
  "scale=" ++ ratStr W ++ ":" ++ ratStr H
    ++ ":force_original_aspect_ratio=decrease,pad=" ++ ratStr W ++ ":" ++ ratStr H
    ++ ":(ow-iw)/2:(oh-ih)/2"

/-- The foreground chain of the smart-layout graph (lines 144–146). -/
def fgChain (W H zoom : ℚ) : String :=
  "[fg_src]scale=iw*" ++ ratStr zoom ++ ":ih*" ++ ratStr zoom
    ++ ",scale=w=" ++ ratStr W ++ ":h=" ++ ratStr H
    ++ ":force_original_aspect_ratio=decrease[fg]"

/-- The background chain of the smart-layout graph (lines 149–169): blur,
mirror, labelled image input, or a generated black source (also the
fallback when an image background lacks a path). -/
def bgChain (W H : ℚ) : BgType → Option String → String
  | BgType.blur, _ =>
    "[bg_src]scale=" ++ ratStr W ++ ":" ++ ratStr H
      ++ ":force_original_aspect_ratio=increase,crop=" ++ ratStr W ++ ":" ++ ratStr H
      ++ ",boxblur=luma_radius=min(h\\,w)/10:luma_power=1[bg]"
  | BgType.mirror, _ =>
    "[bg_src]scale=" ++ ratStr W ++ ":" ++ ratStr H
      ++ ":force_original_aspect_ratio=increase,crop=" ++ ratStr W ++ ":" ++ ratStr H
      ++ ",hflip,boxblur=20[bg]"
  | BgType.image, some _ =>
    "[bg_img]scale=" ++ ratStr W ++ ":" ++ ratStr H
      ++ ":force_original_aspect_ratio=increase,crop=" ++ ratStr W ++ ":" ++ ratStr H
      ++ "[bg]"
  | _, _ => "color=c=black:s=" ++ ratStr W ++ "x" ++ ratStr H ++ "[bg]"

/-- The centering-plus-offset position of the final overlay stage. -/
def overlayPos (offX offY : ℚ) : String :=
  "=(W-w)/2+(" ++ ratStr offX ++ "*W/100):(H-h)/2+(" ++ ratStr offY ++ "*H/100)"

/-- Everything of the smart-layout graph before its final `overlay` stage
(lines 176–208): image/black backgrounds split the input once, blur/mirror
split it twice. -/
def layoutPre (W H zoom : ℚ) (bt : BgType) (ip : Option String) : String :=
  if bt = BgType.image ∨ bt = BgType.black then
    "split=1[fg_src];" ++ bgChain W H bt ip ++ ";" ++ fgChain W H zoom ++ ";[bg][fg]"
  else
    "split=2[bg_src][fg_src];" ++ bgChain W H bt ip ++ ";" ++ fgChain W H zoom
      ++ ";[bg][fg]"

/-- The full smart-layout graph string. -/
def layoutGraph (W H zoom : ℚ) (bt : BgType) (ip : Option String)
    (offX offY : ℚ) : String :=
  layoutPre W H zoom bt ip ++ ("overlay" ++ overlayPos offX offY)

/-- `profile.background?.type || 'black'`. -/
def bgTypeOf (background : Option Background) : BgType :=
  match background with
  | some b => b.type
  | none => BgType.black

/-- The extra external input registered for an image background with a
path (lines 154–155). -/
def layoutBgInput (bt : BgType) (ip : Option String) : Option String :=
  match bt, ip with
  | BgType.image, some p => some p
  | _, _ => none

/-- The smart-layout stage (ffmpeg.ts 120–211): the single filter entry it
pushes and the background input it registers. `needsSmartLayout` is
`zoom ≠ 1.0 || bgType ≠ 'black'` on the JS-defaulted values. -/
def applyLayout (W H : ℚ) (zoom : Option ℚ) (background : Option Background)
    (offset : Option (ℚ × ℚ)) : String × Option String :=
  let z := jsOr zoom 1
  let bt := bgTypeOf background
  let ip := match background with
    | some b => b.imagePath
    | none => none
  let offX := jsOr (offset.map Prod.fst) 0
  let offY := jsOr (offset.map Prod.snd) 0
  if z ≠ 1 ∨ bt ≠ BgType.black then
    (layoutGraph W H z bt ip offX offY, layoutBgInput bt ip)
  else (simplePad W H, none)

/-- Substring occurrence with the needle glued to its right context. -/
theorem strContains_right (a n b : String) :
    strContains (a ++ (n ++ b)) n = true := by
  show chSub n.data ((a ++ (n ++ b)).data) = true
  have h : (a ++ (n ++ b)).data = a.data ++ (n.data ++ b.data) := by simp
  rw [h]
  exact chSub_of_middle n.data a.data b.data

/-- Boolean check that a string avoids the letter `y`. -/
def noY (s : String) : Bool := s.data.all (fun c => c ≠ 'y')

theorem noY_append (a b : String) : noY (a ++ b) = (noY a && noY b) := by
  simp [noY, List.all_append]

theorem noY_ratStr (q : ℚ) : noY (ratStr q) = true := by
  simp only [noY, List.all_eq_true, decide_eq_true_eq]
  exact ratStr_ne_y q

theorem noY_simplePad (W H : ℚ) : noY (simplePad W H) = true := by
  simp only [simplePad, noY_append, noY_ratStr, Bool.and_true, Bool.true_and,
    Bool.and_eq_true]
  decide

theorem simplePad_no_overlay (W H : ℚ) :
    strContains (simplePad W H) "overlay" = false := by
  refine strContains_eq_false (c := 'y') (by decide) ?_
  intro hy
  have h := noY_simplePad W H
  simp only [noY, List.all_eq_true, decide_eq_true_eq] at h
  exact h 'y' hy rfl

/-- Claim C6: the layout stage emits the simple scale+pad filter (which
contains no `overlay` compositing stage) exactly when the JS-defaulted zoom
is 1.0 and the JS-defaulted background type is black; any other
zoom/background combination emits a graph containing `overlay`. -/
theorem c6_simple_vs_overlay (W H : ℚ) (zoom : Option ℚ)
    (background : Option Background) (offset : Option (ℚ × ℚ)) :
    ((jsOr zoom 1 = 1 ∧ bgTypeOf background = BgType.black) →
      (applyLayout W H zoom background offset).1 = simplePad W H
      ∧ strContains (applyLayout W H zoom background offset).1 "overlay" = false)
    ∧ (¬ (jsOr zoom 1 = 1 ∧ bgTypeOf background = BgType.black) →
      strContains (applyLayout W H zoom background offset).1 "overlay" = true) := by
  constructor
  · rintro ⟨h1, h2⟩
    have hne : ¬ (jsOr zoom 1 ≠ 1 ∨ bgTypeOf background ≠ BgType.black) := by
      push_neg
      exact ⟨h1, h2⟩
    have hval : (applyLayout W H zoom background offset).1 = simplePad W H := by
      simp only [applyLayout]
      rw [if_neg hne]
    exact ⟨hval, by rw [hval]; exact simplePad_no_overlay W H⟩
  · intro hn
    have hcond : jsOr zoom 1 ≠ 1 ∨ bgTypeOf background ≠ BgType.black := by
      by_cases h1 : jsOr zoom 1 = 1
      · by_cases h2 : bgTypeOf background = BgType.black
        · exact absurd ⟨h1, h2⟩ hn
        · exact Or.inr h2
      · exact Or.inl h1
    simp only [applyLayout]
    rw [if_pos hcond]
    exact strContains_right _ _ _

/-- Witness for C6: the default profile (no zoom, no background) yields the
simple scale+pad; zoom 2 yields a graph containing `overlay`. -/
theorem c6_simple_vs_overlay_witness :
    (applyLayout 1920 1080 none none none).1 = simplePad 1920 1080
    ∧ strContains (applyLayout 1920 1080 (some 2) none none).1 "overlay" = true :=
  ⟨((c6_simple_vs_overlay 1920 1080 none none none).1 ⟨rfl, rfl⟩).1,
    (c6_simple_vs_overlay 1920 1080 (some 2) none none).2
      (by intro h; exact absurd h.1 (by decide))⟩

/-!
Copyright-protection / frame-injection stage (applyProfile step 7,
ffmpeg.ts lines 248–301).
-/

/-- `profile.protection.mode`. -/
inductive ProtMode
  | timeMode | frameMode | randomMode
deriving Repr, DecidableEq

/-- `profile.protection.type`. -/
inductive ProtType
  | blackFill | whiteFill | staticNoise | grayscale | blurFx | imageFx
  | subtleNoise | colorShift | mirrorEdge
deriving Repr, DecidableEq

/-- `profile.protection`. -/
structure Protection where
  type : ProtType
  mode : Option ProtMode
  interval : ℚ
  duration : Option ℚ
  strength : Option ℚ
  injectionFrames : Option ℚ
  imagePath : Option String
deriving Repr, DecidableEq

/-- The guard of the protection block (line 249):
`interval > 0 || (mode !== 'time' && (injectionFrames || 0) > 0)`. -/
def protGuard (p : Protection) : Bool :=
  decide (0 < p.interval)
  || (decide (p.mode ≠ some ProtMode.timeMode)
      && (match p.injectionFrames with
          | some v => decide (0 < v)
          | none => false))

/-- Frame mode: `Math.max(2, Math.round(interval))`. -/
def frameIvN (interval : ℚ) : ℤ := max 2 (round interval)

/-- Frame mode: `Math.max(1, Math.round(injectionFrames || 1))`. -/
def frameInjN (inj : Option ℚ) : ℤ := max 1 (round (jsOr inj 1))

/-- Random mode: `Math.min(1, Math.max(1, injectionFrames || 1) / Math.max(1, interval))`. -/
def randProbN (interval : ℚ) (inj : Option ℚ) : ℚ :=
  min 1 (max 1 (jsOr inj 1) / max 1 interval)

/-- Time mode: `Math.max(0.1, interval)`. -/
def timeIvN (interval : ℚ) : ℚ := max (1/10) interval

/-- Time mode: `duration || 0.04`. -/
def timeDurN (dur : Option ℚ) : ℚ := jsOr dur (1/25)

/-- The per-frame enable expression (lines 252–272); any mode other than
`frame` and `random` (including a missing mode) is time-based. -/
def enableExprStr (p : Protection) : String :=
  match p.mode with
  | some ProtMode.frameMode =>
    "lt(mod(n," ++ intStr (frameIvN p.interval) ++ "),"
      ++ intStr (frameInjN p.injectionFrames) ++ ")"
  | some ProtMode.randomMode =>
    "lt(random(1)," ++ ratStr (randProbN p.interval p.injectionFrames) ++ ")"
  | _ =>
    "lt(mod(t," ++ ratStr (timeIvN p.interval) ++ ")," ++ ratStr (timeDurN p.duration) ++ ")"

/-- An image input queued for the complex filter graph: the path, numeric
x/y/width/height (`none` models a non-numeric centering-expression
coordinate, which JS `Number()` turns into NaN), and an optional enable
expression. -/
structure LogoInput where
  path : String
  x : Option ℚ
  y : Option ℚ
  width : Option ℚ
  height : Option ℚ
  enable : Option String
deriving Repr, DecidableEq

/-- The filters and logo inputs pushed by the protection stage (lines
274–301). Every effect attaches the enable expression except
`subtle_noise`, which is emitted always-on; an image effect with a path
queues a centered overlay input carrying the enable expression; an image
effect without a path and the solid fills use `drawbox`. -/
def protectionOut (p : Protection) : List String × List LogoInput :=
  if protGuard p then
    let e := enableExprStr p
    let str := jsOr p.strength 1
    match p.type with
    | ProtType.staticNoise =>
      (["noise=alls=" ++ intStr (round (100 * str)) ++ ":allf=t+u:enable=\x27" ++ e ++ "\x27"], [])
    | ProtType.grayscale =>
      (["hue=s=0:enable=\x27" ++ e ++ "\x27"], [])
    | ProtType.blurFx =>
      (["boxblur=luma_radius=" ++ intStr (round (10 * str)) ++ ":luma_power=1:enable=\x27" ++ e ++ "\x27"], [])
    | ProtType.subtleNoise =>
      (["noise=alls=" ++ intStr (round (5 * str)) ++ ":allf=t"], [])
    | ProtType.colorShift =>
      (["hue=h=sin(t*" ++ ratStr str ++ ")*10:enable=\x27" ++ e ++ "\x27"], [])
    | ProtType.mirrorEdge =>
      (["crop=iw-4:ih:2:0,hflip,pad=iw+4:ih:2:0:enable=\x27" ++ e ++ "\x27"], [])
    | ProtType.imageFx =>
      match p.imagePath with
      | some path => ([], [⟨path, none, none, none, none, some e⟩])
      | none => (["drawbox=t=fill:color=black:enable=\x27" ++ e ++ "\x27"], [])
    | ProtType.whiteFill =>
      (["drawbox=t=fill:color=white:enable=\x27" ++ e ++ "\x27"], [])
    | ProtType.blackFill =>
      (["drawbox=t=fill:color=black:enable=\x27" ++ e ++ "\x27"], [])
  else ([], [])

theorem ratStr_of_den_one {q : ℚ} (h : q.den = 1) : ratStr q = intStr q.num := by
  unfold ratStr
  rw [if_pos h]

/-- `ratStr` on a natural number renders its plain decimal digits. -/
theorem ratStr_nat (n : ℕ) : ratStr ((n : ℕ) : ℚ) = natStr n := by
  rw [ratStr_of_den_one (Rat.den_natCast n), Rat.num_natCast]
  unfold intStr
  rw [if_neg (Int.not_lt.mpr (Int.ofNat_nonneg n)), Int.toNat_natCast]

/-- Counterexample for C9: a `subtle_noise` protection (time mode,
interval 5, duration 1) emits `noise=alls=5:allf=t` with no enable
expression attached — neither the computed enable expression
`lt(mod(t,5),1)` nor any `enable` clause occurs in the emitted filter,
contradicting the claim that every effect type carries the enable
expression. -/
theorem c9_subtle_noise_no_enable_counterexample :
    (protectionOut ⟨ProtType.subtleNoise, some ProtMode.timeMode, 5, some 1, none, none, none⟩).1
        = ["noise=alls=5:allf=t"]
    ∧ enableExprStr ⟨ProtType.subtleNoise, some ProtMode.timeMode, 5, some 1, none, none, none⟩
        = "lt(mod(t,5),1)"
    ∧ strContains "noise=alls=5:allf=t" "lt(mod(t,5),1)" = false
    ∧ strContains "noise=alls=5:allf=t" "enable" = false := by
  have hg : protGuard ⟨ProtType.subtleNoise, some ProtMode.timeMode, 5, some 1, none, none, none⟩
      = true := by decide
  have hstr : round ((5 : ℚ) * jsOr none 1) = 5 := by norm_num [jsOr]
  have hiv : timeIvN 5 = ((5 : ℕ) : ℚ) := by norm_num [timeIvN]
  have hdur : timeDurN (some 1) = ((1 : ℕ) : ℚ) := by norm_num [timeDurN, jsOr]
  refine ⟨?_, ?_, by decide, by decide⟩
  · simp only [protectionOut, hg, if_true]
    rw [hstr]
    decide
  · simp only [enableExprStr]
    rw [hiv, hdur, ratStr_nat, ratStr_nat]
    decide

/-- Claim C9 (amended): the emitted enable expression matches the trigger
mode — time: `lt(mod(t,IV),DUR)`, frame: `lt(mod(n,IV),INJ)`, random:
`lt(random(1),PROB)` on the normalized parameters — and it is attached to
the emitted filter of every effect type (solid black/white fill,
grayscale, blur, static noise, hue color-shift, mirrored-edge, custom
image overlay) EXCEPT subtle noise, whose noise filter is emitted without
an enable expression (always active). -/
theorem c9_enable_per_mode_and_type (p : Protection) (path : String)
    (hg : protGuard p = true) :
    (p.mode = some ProtMode.frameMode →
      enableExprStr p = "lt(mod(n," ++ intStr (frameIvN p.interval) ++ "),"
        ++ intStr (frameInjN p.injectionFrames) ++ ")")
    ∧ (p.mode = some ProtMode.randomMode →
      enableExprStr p
        = "lt(random(1)," ++ ratStr (randProbN p.interval p.injectionFrames) ++ ")")
    ∧ ((p.mode = some ProtMode.timeMode ∨ p.mode = none) →
      enableExprStr p = "lt(mod(t," ++ ratStr (timeIvN p.interval) ++ "),"
        ++ ratStr (timeDurN p.duration) ++ ")")
    ∧ (p.type = ProtType.staticNoise →
      protectionOut p = (["noise=alls=" ++ intStr (round (100 * jsOr p.strength 1))
        ++ ":allf=t+u:enable=\x27" ++ enableExprStr p ++ "\x27"], []))
    ∧ (p.type = ProtType.grayscale →
      protectionOut p = (["hue=s=0:enable=\x27" ++ enableExprStr p ++ "\x27"], []))
    ∧ (p.type = ProtType.blurFx →
      protectionOut p = (["boxblur=luma_radius=" ++ intStr (round (10 * jsOr p.strength 1))
        ++ ":luma_power=1:enable=\x27" ++ enableExprStr p ++ "\x27"], []))
    ∧ (p.type = ProtType.colorShift →
      protectionOut p = (["hue=h=sin(t*" ++ ratStr (jsOr p.strength 1)
        ++ ")*10:enable=\x27" ++ enableExprStr p ++ "\x27"], []))
    ∧ (p.type = ProtType.mirrorEdge →
      protectionOut p = (["crop=iw-4:ih:2:0,hflip,pad=iw+4:ih:2:0:enable=\x27"
        ++ enableExprStr p ++ "\x27"], []))
    ∧ (p.type = ProtType.blackFill →
      protectionOut p = (["drawbox=t=fill:color=black:enable=\x27" ++ enableExprStr p ++ "\x27"], []))
    ∧ (p.type = ProtType.whiteFill →
      protectionOut p = (["drawbox=t=fill:color=white:enable=\x27" ++ enableExprStr p ++ "\x27"], []))
    ∧ (p.type = ProtType.imageFx → p.imagePath = some path →
      protectionOut p = ([], [⟨path, none, none, none, none, some (enableExprStr p)⟩]))
    ∧ (p.type = ProtType.subtleNoise →
      protectionOut p = (["noise=alls=" ++ intStr (round (5 * jsOr p.strength 1))
        ++ ":allf=t"], [])) := by
  refine ⟨?_, ?_, ?_, ?_, ?_, ?_, ?_, ?_, ?_, ?_, ?_, ?_⟩
  · intro h; simp [enableExprStr, h]
  · intro h; simp [enableExprStr, h]
  · rintro (h | h) <;> simp [enableExprStr, h]
  · intro h; simp [protectionOut, hg, h]
  · intro h; simp [protectionOut, hg, h]
  · intro h; simp [protectionOut, hg, h]
  · intro h; simp [protectionOut, hg, h]
  · intro h; simp [protectionOut, hg, h]
  · intro h; simp [protectionOut, hg, h]
  · intro h; simp [protectionOut, hg, h]
  · intro h hip; simp [protectionOut, hg, h, hip]
  · intro h; simp [protectionOut, hg, h]

/-- Witness for C9 (amended): a grayscale effect in frame mode carries the
frame-mode enable expression. -/
theorem c9_enable_per_mode_and_type_witness :
    protectionOut ⟨ProtType.grayscale, some ProtMode.frameMode, 30, none, none, some 1, none⟩
      = (["hue=s=0:enable=\x27"
          ++ enableExprStr ⟨ProtType.grayscale, some ProtMode.frameMode, 30, none, none, some 1, none⟩
          ++ "\x27"], []) :=
  (c9_enable_per_mode_and_type
      ⟨ProtType.grayscale, some ProtMode.frameMode, 30, none, none, some 1, none⟩
      "" (by decide)).2.2.2.2.1 rfl

/-- Claim C10: the numeric trigger parameters are silently normalized
before the enable expression is emitted — frame mode rounds and clamps the
interval to at least 2 and the injection count to at least 1; random mode
uses probability `min(1, max(1, injectionFrames)/max(1, interval))`, which
is always in (0, 1]; time mode clamps the interval to at least 0.1 and
defaults a missing duration to 0.04 — and the emitted expressions embed
exactly these normalized values, so none contains a zero interval, a zero
injection count, or a probability above 1. -/
theorem c10_protection_normalization (i v : ℚ) (p : Protection) :
    frameIvN i = max 2 (round i)
    ∧ (2 : ℤ) ≤ frameIvN i
    ∧ frameInjN (some v) = max 1 (round (jsOr (some v) 1))
    ∧ (1 : ℤ) ≤ frameInjN (some v)
    ∧ (1 : ℤ) ≤ frameInjN none
    ∧ randProbN i (some v) = min 1 (max 1 v / max 1 i)
    ∧ 0 < randProbN i (some v)
    ∧ randProbN i (some v) ≤ 1
    ∧ 0 < randProbN i none
    ∧ randProbN i none ≤ 1
    ∧ timeIvN i = max (1/10) i
    ∧ (1/10 : ℚ) ≤ timeIvN i
    ∧ timeDurN none = 1/25
    ∧ (p.mode = some ProtMode.frameMode →
      enableExprStr p = "lt(mod(n," ++ intStr (frameIvN p.interval) ++ "),"
        ++ intStr (frameInjN p.injectionFrames) ++ ")")
    ∧ (p.mode = some ProtMode.randomMode →
      enableExprStr p
        = "lt(random(1)," ++ ratStr (randProbN p.interval p.injectionFrames) ++ ")")
    ∧ ((p.mode = some ProtMode.timeMode ∨ p.mode = none) →
      enableExprStr p = "lt(mod(t," ++ ratStr (timeIvN p.interval) ++ "),"
        ++ ratStr (timeDurN p.duration) ++ ")") := by
  have hnum : (0 : ℚ) < max 1 (jsOr (some v) 1) :=
    lt_of_lt_of_le zero_lt_one (le_max_left _ _)
  have hnum0 : (0 : ℚ) < max 1 (jsOr none 1) :=
    lt_of_lt_of_le zero_lt_one (le_max_left _ _)
  have hden : (0 : ℚ) < max 1 i := lt_of_lt_of_le zero_lt_one (le_max_left _ _)
  refine ⟨rfl, le_max_left _ _, rfl, le_max_left _ _, le_max_left _ _, ?_,
    lt_min zero_lt_one (div_pos hnum hden), min_le_left _ _,
    lt_min zero_lt_one (div_pos hnum0 hden), min_le_left _ _,
    rfl, le_max_left _ _, rfl, ?_, ?_, ?_⟩
  · by_cases hv : v = 0
    · subst hv
      simp [randProbN, jsOr]
    · simp [randProbN, jsOr, hv]
  · intro h; simp [enableExprStr, h]
  · intro h; simp [enableExprStr, h]
  · rintro (h | h) <;> simp [enableExprStr, h]

/-- Witness for C10: a frame-mode protection with interval 30 and one
injection frame emits the enable expression on the normalized values, and
the normalized values respect the claimed bounds. -/
theorem c10_protection_normalization_witness :
    enableExprStr ⟨ProtType.grayscale, some ProtMode.frameMode, 30, none, none, some 1, none⟩
      = "lt(mod(n," ++ intStr (frameIvN 30) ++ ")," ++ intStr (frameInjN (some 1)) ++ ")"
    ∧ (2 : ℤ) ≤ frameIvN 30
    ∧ (1 : ℤ) ≤ frameInjN (some 1) :=
  ⟨(c10_protection_normalization 30 1
      ⟨ProtType.grayscale, some ProtMode.frameMode, 30, none, none, some 1, none⟩).2.2.2.2.2.2.2.2.2.2.2.2.2.1 rfl,
    (c10_protection_normalization 30 1
      ⟨ProtType.grayscale, some ProtMode.frameMode, 30, none, none, some 1, none⟩).2.1,
    (c10_protection_normalization 30 1
      ⟨ProtType.grayscale, some ProtMode.frameMode, 30, none, none, some 1, none⟩).2.2.2.1⟩

/-!
Argument assembly (`build`, ffmpeg.ts lines 407–505). The builder state
carries the accumulated filter entries, the queued logo inputs, the
optional background-image input, trim args and target resolution; the
encoder choice is a parameter (the hardware probe is an external
collaborator per the spec).
-/

/-- The accumulated `FfmpegCommandBuilder` state consumed by `build`. -/
structure FfState where
  inputPath : String
  bitrate : Nat
  audioBitrate : Nat
  videoFilters : List String
  audioFilters : List String
  logoInputs : List LogoInput
  backgroundInput : Option String
  trimArgs : List String
  targetW : ℚ
  targetH : ℚ
deriving Repr, DecidableEq

/-- JS first-occurrence `String.prototype.replace` with a plain pattern. -/
def replaceFirstAux (pat rep : List Char) : List Char → List Char
  | [] => []
  | c :: rest =>
    if pat.isPrefixOf (c :: rest) then rep ++ (c :: rest).drop pat.length
    else c :: replaceFirstAux pat rep rest

/-- JS `s.replace(pat, rep)` for a string pattern (first occurrence only). -/
def replaceFirst (s pat rep : String) : String :=
  ⟨replaceFirstAux pat.data rep.data s.data⟩

/-- JS rendering of a possibly-NaN number. -/
def numStr : Option ℚ → String
  | some q => ratStr q
  | none => "NaN"

/-- Division that propagates NaN. -/
def jsNumDiv (x : Option ℚ) (d : ℚ) : Option ℚ := x.map (fun q => q / d)

/-- The per-logo overlay chain of `build` (lines 463–488): scale each logo
input (permille of the target when a positive size is given, -1 = keep
aspect), then overlay it onto the previous labelled stream, attaching the
logo's enable expression when present. Returns the chain fragment and the
final output label. -/
def logoChainAux (W H : ℚ) : List LogoInput → Nat → String → String × String
  | [], _, lastV => ("", lastV)
  | l :: rest, i, lastV =>
    let logoIdx := i + 1
    let scaledLabel := "sc" ++ natStr logoIdx
    let logoW : ℤ := match l.width with
      | some w => if 0 < w then round (W * (w / 1000)) else -1
      | none => -1
    let logoH : ℤ := match l.height with
      | some h => if 0 < h then round (H * (h / 1000)) else -1
      | none => -1
    let xOver := "overlay=x=(W*" ++ numStr (jsNumDiv l.x 100) ++ "):y=(H*"
      ++ numStr (jsNumDiv l.y 100) ++ ")"
    let finalOverlay := match l.enable with
      | some en => xOver ++ ":enable=\x27" ++ en ++ "\x27"
      | none => xOver
    let outV := "vov" ++ natStr logoIdx
    let frag := "[" ++ natStr logoIdx ++ ":v]scale=" ++ intStr logoW ++ ":"
      ++ intStr logoH ++ "[" ++ scaledLabel ++ "];[" ++ lastV ++ "]["
      ++ scaledLabel ++ "]" ++ finalOverlay ++ "[" ++ outV ++ "];"
    let res := logoChainAux W H rest (i + 1) outV
    (frag ++ res.1, res.2)

/-- Shallow embedding of `build` (ffmpeg.ts 407–505): inputs in order main
content, each logo, then the background image; `bgInputIdx` is
`1 + logoInputs.length` when a background input exists (else -1); the
`[bg_img]` placeholder is replaced only inside the
`logoInputs.length > 0` complex-filter branch — the `-vf` branch emits the
filter entries verbatim. -/
def buildArgs (st : FfState) (encoder : String) (loopArg : Bool)
    (rtmpUrl : String) : List String :=
  let inputArgs :=
    (if loopArg then ["-stream_loop", "-1"] else [])
    ++ (if encoder = "h264_nvenc" then ["-hwaccel", "cuda"]
        else if encoder = "h264_qsv" then ["-hwaccel", "qsv"] else [])
    ++ st.trimArgs
    ++ ["-re", "-i", st.inputPath]
    ++ (st.logoInputs.map (fun l => ["-i", l.path])).flatten
    ++ (match st.backgroundInput with
        | some b => ["-i", b]
        | none => [])
  let bgInputIdx : ℤ := match st.backgroundInput with
    | some _ => 1 + st.logoInputs.length
    | none => -1
  let filterArgs :=
    if 0 < st.logoInputs.length then
      let chainStr :=
        if 0 < st.videoFilters.length then
          let cs := String.intercalate "," st.videoFilters
          if bgInputIdx ≠ -1 then
            replaceFirst cs "[bg_img]" ("[" ++ intStr bgInputIdx ++ ":v]")
          else cs
        else "null"
      let res := logoChainAux st.targetW st.targetH st.logoInputs 0 "vbase"
      let filterChain := "[0:v]" ++ chainStr ++ "[vbase];" ++ res.1
      ["-filter_complex", filterChain.dropRight 1, "-map", "[" ++ res.2 ++ "]",
        "-map", "0:a"]
    else if 0 < st.videoFilters.length then
      ["-vf", String.intercalate "," st.videoFilters]
    else []
  let afArgs :=
    if 0 < st.audioFilters.length then
      ["-af", String.intercalate "," st.audioFilters]
    else []
  inputArgs ++ filterArgs ++ afArgs
    ++ ["-c:v", encoder, "-b:v", natStr st.bitrate ++ "k", "-pix_fmt", "yuv420p",
        "-c:a", "aac", "-b:a", natStr st.audioBitrate ++ "k", "-ar", "44100",
        "-f", "flv", rtmpUrl]

theorem jsOr_none (d : ℚ) : jsOr none d = d := rfl

/-- The layout output of a profile with an image background `bg.png`,
default zoom and no offset, at the default 1920×1080 target. -/
def c7Layout : String × Option String :=
  applyLayout 1920 1080 none (some ⟨BgType.image, some "bg.png"⟩) none

/-- Builder state of that profile with no image overlays. -/
def c7State : FfState :=
  ⟨"in.mp4", 4500, 128, [c7Layout.1], [], [], c7Layout.2, [], 1920, 1080⟩

/-- The arguments `build` assembles for it (software encoder, no loop). -/
def c7Args : List String := buildArgs c7State "libx264" false "rtmp://x"

/-- The same profile plus one image overlay (a queued logo input with
string coordinates, as the protection image effect produces). -/
def c7StateL : FfState :=
  { c7State with logoInputs := [⟨"logo.png", none, none, none, none, none⟩] }

/-- The arguments `build` assembles for the overlay-present state. -/
def c7ArgsL : List String := buildArgs c7StateL "libx264" false "rtmp://x"

theorem ratStr_eval_1920 : ratStr (1920 : ℚ) = "1920" := by
  rw [show (1920 : ℚ) = ((1920 : ℕ) : ℚ) by norm_num, ratStr_nat]
  decide

theorem ratStr_eval_1080 : ratStr (1080 : ℚ) = "1080" := by
  rw [show (1080 : ℚ) = ((1080 : ℕ) : ℚ) by norm_num, ratStr_nat]
  decide

theorem ratStr_eval_one : ratStr (1 : ℚ) = "1" := by
  rw [show (1 : ℚ) = ((1 : ℕ) : ℚ) by norm_num, ratStr_nat]
  decide

theorem ratStr_eval_zero : ratStr (0 : ℚ) = "0" := by
  rw [show (0 : ℚ) = ((0 : ℕ) : ℚ) by norm_num, ratStr_nat]
  decide

set_option maxRecDepth 8000 in
theorem c7Layout_eval :
    c7Layout =
      ("split=1[fg_src];[bg_img]scale=1920:1080:force_original_aspect_ratio=increase,crop=1920:1080[bg];[fg_src]scale=iw*1:ih*1,scale=w=1920:h=1080:force_original_aspect_ratio=decrease[fg];[bg][fg]overlay=(W-w)/2+(0*W/100):(H-h)/2+(0*H/100)",
        some "bg.png") := by
  unfold c7Layout
  simp only [applyLayout, Option.map_none', jsOr_none, bgTypeOf]
  rw [if_pos (Or.inr (by decide))]
  simp only [layoutGraph, layoutPre, bgChain, fgChain, overlayPos, layoutBgInput]
  rw [if_pos (Or.inl trivial)]
  simp only [ratStr_eval_1920, ratStr_eval_1080, ratStr_eval_one, ratStr_eval_zero]
  decide

set_option maxRecDepth 8000 in
/-- Claim C7, evaluated at the failing input: for a profile whose
background is the image `bg.png` and which has NO image overlays, `build`
registers `bg.png` as an extra input, yet emits the filter graph through
`-vf` with the `[bg_img]` placeholder left unresolved — the rewrite to the
resolved input index `[1:v]` never happens, contradicting the claim (and
the code's own comments). With one image overlay present the rewrite does
happen: the placeholder is gone, the resolved `[2:v]` (= 1 + number of
logo inputs) appears, and the inputs are ordered main content, overlay
images, background image. -/
theorem c7_bg_img_unresolved_without_overlays :
    c7Layout.2 = some "bg.png"
    ∧ c7Args.contains "bg.png" = true
    ∧ c7Args.contains "-vf" = true
    ∧ c7Args.contains "-filter_complex" = false
    ∧ c7Args.any (fun a => strContains a "[bg_img]") = true
    ∧ c7Args.any (fun a => strContains a "[1:v]") = false
    ∧ c7ArgsL.any (fun a => strContains a "[bg_img]") = false
    ∧ c7ArgsL.any (fun a => strContains a "[2:v]") = true
    ∧ c7ArgsL.indexOf "in.mp4" < c7ArgsL.indexOf "logo.png"
    ∧ c7ArgsL.indexOf "logo.png" < c7ArgsL.indexOf "bg.png" := by
  have hargs : c7Args = buildArgs
      ⟨"in.mp4", 4500, 128,
        ["split=1[fg_src];[bg_img]scale=1920:1080:force_original_aspect_ratio=increase,crop=1920:1080[bg];[fg_src]scale=iw*1:ih*1,scale=w=1920:h=1080:force_original_aspect_ratio=decrease[fg];[bg][fg]overlay=(W-w)/2+(0*W/100):(H-h)/2+(0*H/100)"],
        [], [], some "bg.png", [], 1920, 1080⟩ "libx264" false "rtmp://x" := by
    unfold c7Args c7State
    rw [c7Layout_eval]
  have hargsL : c7ArgsL = buildArgs
      ⟨"in.mp4", 4500, 128,
        ["split=1[fg_src];[bg_img]scale=1920:1080:force_original_aspect_ratio=increase,crop=1920:1080[bg];[fg_src]scale=iw*1:ih*1,scale=w=1920:h=1080:force_original_aspect_ratio=decrease[fg];[bg][fg]overlay=(W-w)/2+(0*W/100):(H-h)/2+(0*H/100)"],
        [], [⟨"logo.png", none, none, none, none, none⟩], some "bg.png", [], 1920, 1080⟩
      "libx264" false "rtmp://x" := by
    unfold c7ArgsL c7StateL c7State
    rw [c7Layout_eval]
  refine ⟨by rw [c7Layout_eval], ?_, ?_, ?_, ?_, ?_, ?_, ?_, ?_, ?_⟩
  all_goals first
  | (rw [hargs]; decide)
  | (rw [hargsL]; decide)

end FbStream
